import Mathlib

/-!
# FavouriteAnything — verification of the media-extraction and patching logic

This file is a shallow embedding of the FavouriteAnything plugin:

* `src/src/index.ts` — the action-sheet plugin whose `extractMedia` returns a
  *list* of media descriptors, whose `favouriteMedia` handler calls the host
  favourites API with a share-sheet fallback, and whose `onEnable`/`onDisable`
  install and remove an after-hook on the message-actions builder.
* `src/unnamed/part_000` (second document) — a near-duplicate action-sheet
  plugin whose `extractMedia` returns only the *first* matching descriptor,
  whose `buildFavouriteAction` handler has no share fallback, and whose
  `applyPatch` searches `props.options` / `props.children` shapes.

JavaScript strings are modelled as `List Char` so that every operation is
executable by the kernel; absent / `undefined` values are `Option`s; the
JavaScript `||` default-operator is modelled by `jsOr` / `strOr` / `numOr0`
(recalling that `""` and `0` are falsy in JavaScript).
-/

namespace FavouriteAnything

/-- JavaScript strings, modelled as character lists. -/
abbrev Str := List Char

/-- JavaScript truthiness of a possibly-absent string: `undefined` and `""` are falsy. -/
def truthy : Option Str → Bool
  | some s => !s.isEmpty
  | none => false

/-- JavaScript `a || b` on possibly-absent strings. -/
def jsOr (a b : Option Str) : Option Str :=
  if truthy a then a else b

/-- JavaScript `a || d` where the default `d` is a present string (e.g. `x || ""`). -/
def strOr (a : Option Str) (d : Str) : Str :=
  match a with
  | some s => if s.isEmpty then d else s
  | none => d

/-- JavaScript `n || 0` on a possibly-absent number. -/
def numOr0 : Option Nat → Nat
  | some n => n
  | none => 0

/-- ASCII lower-casing of one character, as done by `String.prototype.toLowerCase`
on the ASCII MIME-type strings involved here. -/
def lowerCh (c : Char) : Char :=
  if c.val ≥ 65 ∧ c.val ≤ 90 then Char.ofNat (c.toNat + 32) else c

/-- `s.toLowerCase()`. -/
def lower (s : Str) : Str := s.map lowerCh

/-- `s.split(";")[0]` — everything before the first semicolon. -/
def beforeSemicolon (s : Str) : Str := s.takeWhile (fun c => c ≠ ';')

/-- `s.startsWith(p)`: is `p` a prefix of `s`?  (arguments: prefix first). -/
def pfx : Str → Str → Bool
  | [], _ => true
  | _ :: _, [] => false
  | a :: as, b :: bs => (a = b) && pfx as bs

/-! ## Host message schema (consumed, not owned)

`{ attachments: [{url, proxy_url, content_type, width, height}],
   embeds: [{type, url, image:{...}, video:{...}}] }`,
with every field possibly absent.  `index.ts` additionally reads the
`contentType` and `proxyURL` spellings, so those appear as separate fields. -/

structure Attachment where
  url : Option Str
  proxy_url : Option Str
  proxyURL : Option Str
  content_type : Option Str
  contentType : Option Str
  width : Option Nat
  height : Option Nat
deriving DecidableEq

/-- The `image` / `video` sub-object of an embed. -/
structure EmbedMedia where
  url : Option Str
  proxy_url : Option Str
  proxyURL : Option Str
  width : Option Nat
  height : Option Nat
deriving DecidableEq

structure Embed where
  type : Option Str
  url : Option Str
  image : Option EmbedMedia
  video : Option EmbedMedia
deriving DecidableEq

/-- A message-like record.  `none` in `attachments`/`embeds` models an absent
or non-array field (the sources guard with `Array.isArray`). -/
structure Message where
  attachments : Option (List Attachment)
  embeds : Option (List Embed)
deriving DecidableEq

/-- A media descriptor.  `index.ts` produces objects with only `url`,
`proxyUrl`, `isVideo` (reading `.width` on them would give `undefined`,
i.e. `none` here); the `part_000` extractor also fills `width`/`height`
(spelled `proxyURL` there; the spelling is not modelled). -/
structure Media where
  url : Option Str
  proxyUrl : Option Str
  isVideo : Bool
  width : Option Nat
  height : Option Nat
deriving DecidableEq

def gifvStr : Str := "gifv".data

/-! ## `extractMedia` from `src/src/index.ts` (lines 106–160)

Returns *every* image/video descriptor: all qualifying attachments in order,
then, per embed in order, a gifv video, then an `image` field, then a
non-gifv `video` field (the three `if`s in the source are not exclusive). -/

/-- `(att.content_type || att.contentType || "")` of `index.ts` line 112. -/
def ctRawTS (att : Attachment) : Str :=
  strOr att.content_type (strOr att.contentType [])

/-- `index.ts` lines 112–125: lower-case the content type, then test the
`image/` / `video/` prefixes.  `some false` = image, `some true` = video,
`none` = the attachment does not qualify. -/
def mimeFormatTS (ct : Str) : Option Bool :=
  if pfx "image/".data (lower ct) then some false
  else if pfx "video/".data (lower ct) then some true
  else none

/-- One iteration of the attachments loop of `index.ts` (lines 111–126). -/
def attMediaTS (att : Attachment) : Option Media :=
  match mimeFormatTS (ctRawTS att) with
  | some v =>
    some { url := att.url
           proxyUrl := jsOr att.proxy_url (jsOr att.proxyURL att.url)
           isVideo := v, width := none, height := none }
  | none => none

/-- One iteration of the embeds loop of `index.ts` (lines 131–156): a gifv
video push, then an `image` push, then a non-gifv `video` push. -/
def embedMediaTS (e : Embed) : List Media :=
  (match e.video with
   | some v =>
     if e.type = some gifvStr then
       [{ url := jsOr e.url v.url
          proxyUrl := jsOr v.proxy_url (jsOr v.proxyURL v.url)
          isVideo := true, width := none, height := none }]
     else []
   | none => []) ++
  (match e.image with
   | some img =>
     [{ url := img.url
        proxyUrl := jsOr img.proxy_url (jsOr img.proxyURL img.url)
        isVideo := false, width := none, height := none }]
   | none => []) ++
  (match e.video with
   | some v =>
     if e.type = some gifvStr then []
     else
       [{ url := v.url
          proxyUrl := jsOr v.proxy_url (jsOr v.proxyURL v.url)
          isVideo := true, width := none, height := none }]
   | none => [])

def embedsMediaTS : List Embed → List Media
  | [] => []
  | e :: es => embedMediaTS e ++ embedsMediaTS es

/-- `extractMedia(message)` from `src/src/index.ts`. -/
def extractMedia_ts (message : Option Message) : List Media :=
  match message with
  | none => []
  | some m =>
    (m.attachments.getD []).filterMap attMediaTS ++ embedsMediaTS (m.embeds.getD [])

/-! ## `extractMedia` from `src/unnamed/part_000` (second document, lines 408–462)

Returns only the *first* match: the first qualifying attachment, else the
first embed yielding gifv-video / video / image — note that here the `video`
field is tried *before* `image`, and content-type matching strips `;`
parameters but is case-sensitive. -/

/-- `part_000` line 414: `(att.content_type || "").split(";")[0]`, then the two
prefix tests of line 415.  `some false` = image, `some true` = video. -/
def mimeFormatB (ct : Option Str) : Option Bool :=
  if pfx "image/".data (beforeSemicolon (strOr ct [])) then some false
  else if pfx "video/".data (beforeSemicolon (strOr ct [])) then some true
  else none

/-- One iteration of the attachments loop of `part_000` (lines 412–425). -/
def attMediaB (att : Attachment) : Option Media :=
  match mimeFormatB att.content_type with
  | some v =>
    some { url := att.url
           proxyUrl := jsOr att.proxy_url att.url
           isVideo := v
           width := some (numOr0 att.width), height := some (numOr0 att.height) }
  | none => none

/-- One iteration of the embeds loop of `part_000` (lines 428–459):
gifv-with-video, else `video`, else `image`; first match returns. -/
def embedMediaB (e : Embed) : Option Media :=
  match e.video with
  | some v =>
    if e.type = some gifvStr then
      some { url := jsOr e.url v.url
             proxyUrl := jsOr v.proxy_url (jsOr v.url e.url)
             isVideo := true
             width := some (numOr0 v.width), height := some (numOr0 v.height) }
    else
      some { url := v.url
             proxyUrl := jsOr v.proxy_url v.url
             isVideo := true
             width := some (numOr0 v.width), height := some (numOr0 v.height) }
  | none =>
    match e.image with
    | some img =>
      some { url := img.url
             proxyUrl := jsOr img.proxy_url img.url
             isVideo := false
             width := some (numOr0 img.width), height := some (numOr0 img.height) }
    | none => none

/-- First `some` produced by `f` along a list (the early-`return` loops). -/
def firstSome (f : α → Option β) : List α → Option β
  | [] => none
  | a :: as =>
    match f a with
    | some b => some b
    | none => firstSome f as

/-- `extractMedia(message)` from `src/unnamed/part_000` (second document). -/
def extractMedia_b (message : Option Message) : Option Media :=
  match message with
  | none => none
  | some m =>
    match firstSome attMediaB (m.attachments.getD []) with
    | some d => some d
    | none => firstSome embedMediaB (m.embeds.getD [])

/-- The attachment of the worked example in the spec (§8):
`{url:"a.png", content_type:"image/png; charset=x", width:100, height:50}`. -/
def exAttachment : Attachment where
  url := some "a.png".data
  proxy_url := none
  proxyURL := none
  content_type := some "image/png; charset=x".data
  contentType := none
  width := some 100
  height := some 50

/-- The message of the worked example in the spec (§8). -/
def exMessage : Message where
  attachments := some [exAttachment]
  embeds := none

/-! ## The action-sheet after-hook of `src/src/index.ts` (lines 261–291)

An action item is either a pre-existing host item (opaque to the plugin) or
the plugin's favourite item, which carries the label and the media list the
`onPress` closure captured.  The return value of the patched builder is a
list, an object (whose `items` / `actions` / `options` fields may or may not
hold lists), or anything else. -/

def favLabel : Str := "⭐ Favourite".data

inductive ItemTS where
  | host (id : Nat)
  | fav (label : Str) (media : List Media)
deriving DecidableEq

inductive SheetTS where
  | arr (xs : List ItemTS)
  | obj (items actions options : Option (List ItemTS))
  | other
deriving DecidableEq

/-- The `patcher.after` callback installed by `onEnable` in `index.ts`
(lines 261–291): extract media; if none, return the result untouched; else
push the favourite action onto the result itself, its `items`, or its
`actions` — in that order — and otherwise leave it untouched. -/
def hookTS (message : Option Message) (result : SheetTS) : SheetTS :=
  let media := extractMedia_ts message
  if media.isEmpty then result
  else
    let favouriteAction := ItemTS.fav favLabel media
    match result with
    | SheetTS.arr xs => SheetTS.arr (xs ++ [favouriteAction])
    | SheetTS.obj items actions options =>
      match items with
      | some xs => SheetTS.obj (some (xs ++ [favouriteAction])) actions options
      | none =>
        match actions with
        | some xs => SheetTS.obj none (some (xs ++ [favouriteAction])) options
        | none => SheetTS.obj none none options
    | SheetTS.other => SheetTS.other

/-! ## The action-sheet after-hook of `src/unnamed/part_000` (lines 564–614)

Here the favourite item additionally carries the `key` field, and the
recognized shapes are: the options array itself, a React element with
`props.options`, or a React element whose `props.children` contains a child
with `child.props.options`. -/

def favKey : Str := "favouriteAnything".data

inductive ItemB where
  | host (id : Nat)
  | fav (key label : Str) (media : Media)
deriving DecidableEq

/-- A `props.children` entry, as far as the hook inspects it:
`options` is `some xs` when `child && child.props &&
Array.isArray(child.props.options)` and `none` otherwise. -/
structure ChildB where
  options : Option (List ItemB)
deriving DecidableEq

inductive SheetB where
  | arr (xs : List ItemB)
  | elem (options : Option (List ItemB)) (children : Option (List ChildB))
  | other
deriving DecidableEq

/-- `buildFavouriteAction(media)` of `part_000` (lines 471–507), as sheet data. -/
def buildFavouriteActionItem (media : Media) : ItemB :=
  ItemB.fav favKey favLabel media

/-- `part_000` lines 597–604: push into the first child that has an options
array; `none` when no child does. -/
def pushFirstChild (fav : ItemB) : List ChildB → Option (List ChildB)
  | [] => none
  | c :: cs =>
    match c.options with
    | some xs => some ({ options := some (xs ++ [fav]) } :: cs)
    | none => (pushFirstChild fav cs).map (c :: ·)

/-- The `afterActions` callback installed by `applyPatch` in `part_000`
(lines 564–614). -/
def hookB (message : Option Message) (ret : SheetB) : SheetB :=
  match extractMedia_b message with
  | none => ret
  | some media =>
    let fav := buildFavouriteActionItem media
    match ret with
    | SheetB.arr xs => SheetB.arr (xs ++ [fav])
    | SheetB.elem options children =>
      match options with
      | some xs => SheetB.elem (some (xs ++ [fav])) children
      | none =>
        match children with
        | some cs =>
          match pushFirstChild fav cs with
          | some cs2 => SheetB.elem none (some cs2)
          | none => SheetB.elem none (some cs)
        | none => SheetB.elem none none
    | SheetB.other => SheetB.other

/-! ## Plugin lifecycle: `onDisable` (`index.ts` lines 297–303, `part_000`
lines 328–338)

An unpatch handle is an opaque callable that may throw; `onDisable` runs every
collected handle inside `try`/`catch` (so a failure is logged and swallowed)
and then clears the list.  The `Except` layer models an exception escaping
`onDisable` itself; the returned trace lists the ids of the handles invoked,
in order. -/

structure Handle where
  id : Nat
  fails : Bool
deriving DecidableEq

/-- Invoking one unpatch handle: throws exactly when `fails`. -/
def callHandle (h : Handle) : Except Str Unit :=
  if h.fails then Except.error "cleanup error".data else Except.ok ()

/-- `cleanups.forEach(fn => { try { fn() } catch (e) { warn } })`: every handle
is invoked, in order, whether or not an earlier one threw. -/
def runCleanups : List Handle → List Nat
  | [] => []
  | h :: rest =>
    match callHandle h with
    | Except.ok _ => h.id :: runCleanups rest
    | Except.error _ => h.id :: runCleanups rest

structure PluginState where
  cleanups : List Handle
deriving DecidableEq

/-- `onDisable()`: run every handle under `try`/`catch`, then `cleanups = []`. -/
def onDisable (st : PluginState) : Except Str (PluginState × List Nat) :=
  Except.ok ({ cleanups := [] }, runCleanups st.cleanups)

/-- `onEnable()` of `index.ts`: when the message-actions module is found, one
patch is installed and its unpatch handle pushed onto `cleanups`; when it is
not found, `onEnable` returns early and installs nothing. -/
def onEnableTS (found : Option Handle) (st : PluginState) : PluginState :=
  { cleanups := st.cleanups ++ found.toList }

/-! ## The favourite handlers, as host-effect traces

`favouriteMedia` (`index.ts` lines 173–205) and the `onPress` closure built by
`buildFavouriteAction` (`part_000` lines 471–507).  A `HostEnv` fixes the
empirically-known behaviour of the host surface: whether the favourites module
resolves, whether its `addToFavorites` throws, whether `Share.open` rejects
(user cancelled), and whether a toast utility is available (Android / the
`showToast` module).  The `Except` layer models an exception escaping the
handler to the host. -/

inductive Eff where
  | favCall (src url : Option Str) (width height : Option Nat) (format : Nat)
  | toast (msg : Str)
  | shareOpen (message : Option Str)
  | logWarn (tag : Str)
  | logError (tag : Str)
deriving DecidableEq

structure HostEnv where
  favAvailable : Bool
  favThrows : Bool
  shareFails : Bool
  toastAvailable : Bool
deriving DecidableEq

/-- `target.isVideo ? 2 : 1` — the host format enumeration (VIDEO = 2, IMAGE = 1). -/
def formatOf (isVideo : Bool) : Nat := if isVideo then 2 else 1

/-- `favouriteMedia(mediaList)` of `src/src/index.ts` (lines 173–205): try the
host favourites API on the first descriptor (toast on success); on a thrown
call fall through to `Share.open` with the raw URL; a rejected share is caught
and only logged. -/
def favouriteMedia (env : HostEnv) (mediaList : List Media) : Except Str (List Eff) :=
  match mediaList with
  | [] => Except.ok []
  | target :: _ =>
    let shareStep : List Eff :=
      Eff.shareOpen target.url ::
        (if env.shareFails then [Eff.logWarn "share".data] else [])
    if env.favAvailable then
      let call := Eff.favCall (jsOr target.proxyUrl target.url) target.url
        none none (formatOf target.isVideo)
      if env.favThrows then
        Except.ok (call :: Eff.logWarn "addToFavorites".data :: shareStep)
      else
        Except.ok (call ::
          (if env.toastAvailable then [Eff.toast "Added to favourites ⭐".data] else []))
    else
      Except.ok shareStep

def failToastB : Str := "Failed to favourite — check console.".data

def unavailableToastB : Str := "Favourites API unavailable on this Discord build.".data

/-- The `onPress` closure of `buildFavouriteAction` in `part_000`
(lines 475–505): try the host favourites API (success toast); on a thrown call
show a failure toast; when the API is unavailable show an explanatory toast.
There is no share fallback in this implementation. -/
def buildFavouriteActionPress (env : HostEnv) (media : Media) : Except Str (List Eff) :=
  if env.favAvailable then
    let call := Eff.favCall media.proxyUrl media.url media.width media.height
      (formatOf media.isVideo)
    if env.favThrows then
      Except.ok (call :: Eff.logError "addToFavorites".data ::
        (if env.toastAvailable then [Eff.toast failToastB] else []))
    else
      Except.ok (call ::
        (if env.toastAvailable then [Eff.toast "Added to Favourites ⭐".data] else []))
  else
    Except.ok (if env.toastAvailable then [Eff.toast unavailableToastB] else [])

/-- An `Except`-valued call returned normally (no exception escaped). -/
def noThrow : Except Str α → Bool
  | Except.ok _ => true
  | Except.error _ => false

deriving instance DecidableEq for Except

/-! ## Concrete fixtures used by the witness and counterexample theorems -/

/-- An embed `image` field with url `"i"`. -/
def iEmbedMedia : EmbedMedia where
  url := some "i".data
  proxy_url := none
  proxyURL := none
  width := some 1
  height := some 2

/-- An embed `video` field with url `"v"`. -/
def vEmbedMedia : EmbedMedia where
  url := some "v".data
  proxy_url := none
  proxyURL := none
  width := some 3
  height := some 4

/-- A non-gifv embed carrying both an image field and a video field. -/
def richEmbed : Embed where
  type := some "rich".data
  url := none
  image := some iEmbedMedia
  video := some vEmbedMedia

def richMsg : Message where
  attachments := none
  embeds := some [richEmbed]

/-- A gifv embed carrying both a video field and an image field. -/
def gifvEmbed : Embed where
  type := some gifvStr
  url := some "g".data
  image := some iEmbedMedia
  video := some vEmbedMedia

def gifvMsg : Message where
  attachments := none
  embeds := some [gifvEmbed]

/-- An attachment whose only populated fields are a url and the given content type. -/
def ctOnlyAtt (ct : Str) : Attachment where
  url := some "a".data
  proxy_url := none
  proxyURL := none
  content_type := some ct
  contentType := none
  width := none
  height := none

def ctOnlyMsg (ct : Str) : Message where
  attachments := some [ctOnlyAtt ct]
  embeds := none

/-- A message with one embed whose `video` field exists but is empty. -/
def bareVideoMsg : Message where
  attachments := none
  embeds := some [{ type := none, url := none, image := none,
                    video := some ⟨none, none, none, none, none⟩ }]

/-- A message with a text attachment and a bare rich embed: no qualifying media. -/
def noMediaMsg : Message where
  attachments := some [ctOnlyAtt "text/plain".data]
  embeds := some [{ type := some "rich".data, url := some "u".data,
                    image := none, video := none }]

/-- A host environment where the favourites API resolves but its call throws. -/
def throwingEnv : HostEnv where
  favAvailable := true
  favThrows := true
  shareFails := false
  toastAvailable := true

/-- A media descriptor with distinct url and proxy url. -/
def sampleMedia : Media where
  url := some "u".data
  proxyUrl := some "p".data
  isVideo := true
  width := some 3
  height := some 4

/-! ## Helper lemmas -/

theorem firstSome_eq_none (f : α → Option β) :
    ∀ l : List α, (∀ x ∈ l, f x = none) → firstSome f l = none := by
  intro l hl
  induction l with
  | nil => rfl
  | cons a as ih =>
    have ha : f a = none := hl a (List.mem_cons_self a as)
    simp only [firstSome, ha]
    exact ih fun x hx => hl x (List.mem_cons_of_mem a hx)

theorem firstSome_append_some (f : α → Option β) (l1 : List α) (a : α) (l2 : List α)
    (b : β) (h1 : ∀ x ∈ l1, f x = none) (ha : f a = some b) :
    firstSome f (l1 ++ a :: l2) = some b := by
  induction l1 with
  | nil => simp only [List.nil_append, firstSome, ha]
  | cons x xs ih =>
    have hx : f x = none := h1 x (List.mem_cons_self x xs)
    simp only [List.cons_append, firstSome, hx]
    exact ih fun y hy => h1 y (List.mem_cons_of_mem x hy)

theorem firstSome_eq_some (f : α → Option β) :
    ∀ l : List α, ∀ b : β, firstSome f l = some b → ∃ a ∈ l, f a = some b := by
  intro l
  induction l with
  | nil => intro b h; exact absurd h (by simp [firstSome])
  | cons x xs ih =>
    intro b h
    cases hx : f x with
    | some c =>
      simp only [firstSome, hx] at h
      exact ⟨x, List.mem_cons_self x xs, by rw [hx, h]⟩
    | none =>
      simp only [firstSome, hx] at h
      obtain ⟨a, hmem, hfa⟩ := ih b h
      exact ⟨a, List.mem_cons_of_mem x hmem, hfa⟩

theorem runCleanups_map : ∀ l : List Handle, runCleanups l = l.map Handle.id := by
  intro l
  induction l with
  | nil => rfl
  | cons h rest ih =>
    cases hc : callHandle h with
    | ok u => simp only [runCleanups, hc, ih, List.map_cons]
    | error e => simp only [runCleanups, hc, ih, List.map_cons]

/-- The prefix test against a semicolon-free prefix is blind to everything at
and after the first semicolon, even under lower-casing. -/
theorem pfx_lower_beforeSemicolon (p : Str) (hp : ∀ c ∈ p, c ≠ ';') :
    ∀ s : Str, pfx p (lower (beforeSemicolon s)) = pfx p (lower s) := by
  induction p with
  | nil => intro s; rfl
  | cons a as ih =>
    intro s
    have ha : a ≠ ';' := hp a (List.mem_cons_self a as)
    have has : ∀ c ∈ as, c ≠ ';' := fun c hc => hp c (List.mem_cons_of_mem a hc)
    cases s with
    | nil => rfl
    | cons b bs =>
      by_cases hb : b = ';'
      · subst hb
        have h1 : beforeSemicolon (';' :: bs) = ([] : Str) := by
          simp [beforeSemicolon, List.takeWhile]
        have h2 : lowerCh ';' = ';' := by decide
        rw [h1]
        show false = pfx (a :: as) (lower (';' :: bs))
        simp [lower, h2, pfx, ha]
      · have h1 : beforeSemicolon (b :: bs) = b :: beforeSemicolon bs := by
          simp [beforeSemicolon, List.takeWhile, hb]
        rw [h1]
        show pfx (a :: as) (lowerCh b :: lower (beforeSemicolon bs)) =
          pfx (a :: as) (lowerCh b :: lower bs)
        simp only [pfx, ih has bs]

theorem attMediaB_dims (att : Attachment) (d : Media) (h : attMediaB att = some d) :
    d.width.isSome ∧ d.height.isSome := by
  unfold attMediaB at h
  cases hm : mimeFormatB att.content_type with
  | some v => rw [hm] at h; cases h; exact ⟨rfl, rfl⟩
  | none => rw [hm] at h; cases h

theorem embedMediaB_dims (e : Embed) (d : Media) (h : embedMediaB e = some d) :
    d.width.isSome ∧ d.height.isSome := by
  unfold embedMediaB at h
  split at h
  · split at h <;> (cases h; exact ⟨rfl, rfl⟩)
  · split at h
    · cases h; exact ⟨rfl, rfl⟩
    · cases h

theorem pushFirstChild_append (fav : ItemB) :
    ∀ (pre : List ChildB) (c : ChildB) (post : List ChildB) (xs : List ItemB),
      (∀ c2 ∈ pre, c2.options = none) → c.options = some xs →
      pushFirstChild fav (pre ++ c :: post) =
        some (pre ++ { options := some (xs ++ [fav]) } :: post) := by
  intro pre
  induction pre with
  | nil =>
    intro c post xs _ hc
    simp only [List.nil_append, pushFirstChild, hc]
  | cons p ps ih =>
    intro c post xs hpre hc
    have hp : p.options = none := hpre p (List.mem_cons_self p ps)
    have hrec := ih c post xs (fun c2 h2 => hpre c2 (List.mem_cons_of_mem p h2)) hc
    simp only [List.cons_append, pushFirstChild, hp, List.append_eq, hrec, Option.map_some']

theorem embedMediaTS_empty (e : Embed) (hi : e.image = none) (hv : e.video = none) :
    embedMediaTS e = [] := by
  simp [embedMediaTS, hi, hv]

theorem embedMediaB_none (e : Embed) (hi : e.image = none) (hv : e.video = none) :
    embedMediaB e = none := by
  simp [embedMediaB, hi, hv]

theorem embedsMediaTS_empty :
    ∀ es : List Embed, (∀ e ∈ es, embedMediaTS e = []) → embedsMediaTS es = [] := by
  intro es h
  induction es with
  | nil => rfl
  | cons e rest ih =>
    simp only [embedsMediaTS, h e (List.mem_cons_self e rest), List.nil_append]
    exact ih fun x hx => h x (List.mem_cons_of_mem e hx)

/-! ## Claims -/

/-- C2 (amended): on the message
`{attachments: [{url:"a.png", content_type:"image/png; charset=x", width:100, height:50}]}`
the `part_000` extractor returns exactly the descriptor
`{url:"a.png", proxyUrl:"a.png", isVideo:false, width:100, height:50}`, while the
`index.ts` extractor returns the one-element list whose descriptor has the same
url, proxy url and classification but carries no `width`/`height` fields. -/
theorem c2_extractor_example :
    extractMedia_b (some exMessage) =
      some ⟨some "a.png".data, some "a.png".data, false, some 100, some 50⟩ ∧
    extractMedia_ts (some exMessage) =
      [⟨some "a.png".data, some "a.png".data, false, none, none⟩] := by decide

/-- C2 counterexample: the `index.ts` extractor's sole descriptor for the
spec's worked example is *not* the claimed
`{url:"a.png", proxyUrl:"a.png", isVideo:false, width:100, height:50}` —
its `width`/`height` are absent. -/
theorem c2_counterexample :
    (extractMedia_ts (some exMessage)).length = 1 ∧
    extractMedia_ts (some exMessage) ≠
      [⟨some "a.png".data, some "a.png".data, false, some 100, some 50⟩] := by decide

/-- C4 (amended): in `index.ts`, whether an attachment qualifies depends only
on the lower-cased content type (case-insensitive), and everything at and
after the first `;` is irrelevant to the prefix test; in particular
`"IMAGE/PNG; charset=x"` qualifies as an image exactly as `"image/png"` does.
In `part_000`, parameters after `;` are stripped but the comparison is
case-sensitive, so `"IMAGE/PNG; charset=x"` does **not** qualify there. -/
theorem c4_content_type_matching :
    (∀ ct ct2 : Str, lower ct = lower ct2 → mimeFormatTS ct = mimeFormatTS ct2) ∧
    (∀ ct : Str, mimeFormatTS (beforeSemicolon ct) = mimeFormatTS ct) ∧
    (mimeFormatTS "IMAGE/PNG; charset=x".data = some false ∧
      mimeFormatTS "image/png".data = some false) ∧
    (mimeFormatB (some "IMAGE/PNG; charset=x".data) = none ∧
      mimeFormatB (some "image/png; charset=x".data) = some false) := by
  refine ⟨?_, ?_, by decide, by decide⟩
  · intro ct ct2 h
    simp only [mimeFormatTS, h]
  · intro ct
    simp only [mimeFormatTS,
      pfx_lower_beforeSemicolon "image/".data (by decide) ct,
      pfx_lower_beforeSemicolon "video/".data (by decide) ct]

theorem c4_content_type_matching_witness :
    mimeFormatTS "IMAGE/png".data = mimeFormatTS "image/PNG".data ∧
    mimeFormatTS (beforeSemicolon "video/mp4; codecs=avc1".data) =
      mimeFormatTS "video/mp4; codecs=avc1".data ∧
    mimeFormatTS "video/mp4; codecs=avc1".data = some true :=
  ⟨c4_content_type_matching.1 "IMAGE/png".data "image/PNG".data (by decide),
   c4_content_type_matching.2.1 "video/mp4; codecs=avc1".data,
   by decide⟩

/-- C4 counterexample: for the `part_000` extractor (cited lines 414–415 of
`src/unnamed/part_000`), the attachment content type
`"IMAGE/PNG; charset=x"` does **not** qualify as an image, while
`"image/png"` does — matching there is case-sensitive, contradicting the
claim that the two qualify exactly alike. -/
theorem c4_counterexample :
    extractMedia_b (some (ctOnlyMsg "IMAGE/PNG; charset=x".data)) = none ∧
    extractMedia_b (some (ctOnlyMsg "image/png".data)) =
      some ⟨some "a".data, some "a".data, false, some 0, some 0⟩ := by decide

/-- C9 (amended): neither extractor can throw: on an absent message and on a
message whose `attachments`/`embeds` are missing, both return their empty
result; every `part_000` descriptor carries numeric `width`/`height`
(absent numbers default to 0); but an absent url/proxy-url is propagated as
`undefined` (`none`), not defaulted to the empty string. -/
theorem c9_extractor_safety :
    (extractMedia_ts none = [] ∧ extractMedia_b none = none) ∧
    (∀ m : Message, m.attachments = none → m.embeds = none →
       extractMedia_ts (some m) = [] ∧ extractMedia_b (some m) = none) ∧
    (∀ (m : Option Message) (d : Media), extractMedia_b m = some d →
       d.width.isSome ∧ d.height.isSome) ∧
    (extractMedia_b (some bareVideoMsg) = some ⟨none, none, true, some 0, some 0⟩ ∧
      extractMedia_ts (some bareVideoMsg) = [⟨none, none, true, none, none⟩]) := by
  refine ⟨⟨rfl, rfl⟩, ?_, ?_, by decide⟩
  · intro m h1 h2
    constructor
    · simp [extractMedia_ts, h1, h2, embedsMediaTS]
    · simp [extractMedia_b, h1, h2, firstSome]
  · intro m d h
    cases m with
    | none => exact absurd h (by simp [extractMedia_b])
    | some mm =>
      cases hfa : firstSome attMediaB (mm.attachments.getD []) with
      | some d0 =>
        simp only [extractMedia_b, hfa, Option.some.injEq] at h
        obtain ⟨a, _, hfa2⟩ := firstSome_eq_some attMediaB _ d0 hfa
        exact h ▸ attMediaB_dims a d0 hfa2
      | none =>
        simp only [extractMedia_b, hfa] at h
        obtain ⟨e, _, he⟩ := firstSome_eq_some embedMediaB _ d h
        exact embedMediaB_dims e d he

theorem c9_extractor_safety_witness :
    extractMedia_ts (some ⟨none, none⟩) = [] ∧
    extractMedia_b (some ⟨none, none⟩) = none ∧
    ((⟨none, none, true, some 0, some 0⟩ : Media).width.isSome ∧
      (⟨none, none, true, some 0, some 0⟩ : Media).height.isSome) :=
  ⟨(c9_extractor_safety.2.1 ⟨none, none⟩ rfl rfl).1,
   (c9_extractor_safety.2.1 ⟨none, none⟩ rfl rfl).2,
   c9_extractor_safety.2.2.1 (some bareVideoMsg) ⟨none, none, true, some 0, some 0⟩
     (by decide)⟩

/-- C9 counterexample: for an embed whose `video` field has no url, the
produced descriptor's `url` is `undefined` (`none`), not the empty string
that the claim's defaulting rule requires. -/
theorem c9_counterexample :
    (extractMedia_b (some bareVideoMsg)).map Media.url = some none ∧
    (extractMedia_b (some bareVideoMsg)).map Media.url ≠ some (some ([] : Str)) ∧
    (extractMedia_ts (some bareVideoMsg)).map Media.url = [none] := by decide

/-- C1 (amended): both patched builders append exactly one favourite item to a
list-shaped return, bound to the extractor's first descriptor.  Attachments
take precedence over embeds with first-match-wins in the `part_000` extractor,
whose within-embed precedence is the claimed one: any video field is
classified video, and an image field only yields an image when no video field
exists.  The `index.ts` extractor deviates within an embed: a gifv video is
still first, but an *image* field beats a non-gifv *video* field. -/
theorem c1_first_media_precedence :
    (∀ m xs d, extractMedia_b m = some d →
       hookB m (SheetB.arr xs) = SheetB.arr (xs ++ [buildFavouriteActionItem d])) ∧
    (∀ m xs, extractMedia_ts m ≠ [] →
       hookTS m (SheetTS.arr xs) =
         SheetTS.arr (xs ++ [ItemTS.fav favLabel (extractMedia_ts m)])) ∧
    (∀ (m : Message) pre att post d, m.attachments = some (pre ++ att :: post) →
       (∀ a ∈ pre, attMediaB a = none) → attMediaB att = some d →
       extractMedia_b (some m) = some d) ∧
    (∀ (m : Message) pre e post d, m.embeds = some (pre ++ e :: post) →
       (∀ a ∈ m.attachments.getD [], attMediaB a = none) →
       (∀ x ∈ pre, embedMediaB x = none) → embedMediaB e = some d →
       extractMedia_b (some m) = some d) ∧
    (∀ e v, e.video = some v → (embedMediaB e).map Media.isVideo = some true) ∧
    (∀ e i, e.video = none → e.image = some i →
       (embedMediaB e).map Media.isVideo = some false) ∧
    (∀ e v, e.type = some gifvStr → e.video = some v →
       (embedMediaTS e).head?.map Media.isVideo = some true) ∧
    (∀ e i, e.type ≠ some gifvStr → e.image = some i →
       (embedMediaTS e).head?.map Media.isVideo = some false) := by
  refine ⟨?_, ?_, ?_, ?_, ?_, ?_, ?_, ?_⟩
  · intro m xs d h
    simp [hookB, h]
  · intro m xs h
    cases hm : extractMedia_ts m with
    | nil => exact absurd hm h
    | cons a as => simp [hookTS, hm]
  · intro m pre att post d hm hpre hatt
    simp [extractMedia_b, hm, firstSome_append_some attMediaB pre att post d hpre hatt]
  · intro m pre e post d hm hatts hpre he
    have h1 : firstSome attMediaB (m.attachments.getD []) = none :=
      firstSome_eq_none attMediaB _ hatts
    simp [extractMedia_b, hm, h1, firstSome_append_some embedMediaB pre e post d hpre he]
  · intro e v hv
    by_cases ht : e.type = some gifvStr <;> simp [embedMediaB, hv, ht]
  · intro e i hv hi
    simp [embedMediaB, hv, hi]
  · intro e v ht hv
    simp [embedMediaTS, hv, ht]
  · intro e i ht hi
    cases hv : e.video <;> simp [embedMediaTS, hi, ht, hv]

theorem c1_first_media_precedence_witness :
    hookB (some richMsg) (SheetB.arr [ItemB.host 0]) =
      SheetB.arr [ItemB.host 0,
        buildFavouriteActionItem ⟨some "v".data, some "v".data, true, some 3, some 4⟩] ∧
    (embedMediaTS richEmbed).head?.map Media.isVideo = some false ∧
    (embedMediaB richEmbed).map Media.isVideo = some true :=
  ⟨c1_first_media_precedence.1 (some richMsg) [ItemB.host 0]
      ⟨some "v".data, some "v".data, true, some 3, some 4⟩ (by decide),
   c1_first_media_precedence.2.2.2.2.2.2.2 richEmbed iEmbedMedia (by decide) rfl,
   c1_first_media_precedence.2.2.2.2.1 richEmbed vEmbedMedia rfl⟩

/-- C1 counterexample: for a message whose sole (non-gifv) embed has *both* an
image field and a video field, the claimed precedence (video field before
image field) makes the video the first qualifying media item, but the
`index.ts` builder binds its favourite item to a media list headed by the
*image* descriptor.  (`part_000` does pick the video.) -/
theorem c1_counterexample :
    (extractMedia_ts (some richMsg)).map Media.isVideo = [false, true] ∧
    hookTS (some richMsg) (SheetTS.arr []) =
      SheetTS.arr [ItemTS.fav favLabel
        [⟨some "i".data, some "i".data, false, none, none⟩,
         ⟨some "v".data, some "v".data, true, none, none⟩]] ∧
    (extractMedia_b (some richMsg)).map Media.isVideo = some true := by decide

/-- C3 (amended): for a gifv-typed embed with a video field, the `part_000`
extractor yields exactly the video descriptor (so never an image descriptor),
and the `index.ts` extractor puts the video descriptor first; but when the
same embed also carries an image field, `index.ts` *additionally* appends an
image descriptor after it. -/
theorem c3_gifv_video (e : Embed) (v : EmbedMedia)
    (ht : e.type = some gifvStr) (hv : e.video = some v) :
    embedMediaB e =
      some { url := jsOr e.url v.url, proxyUrl := jsOr v.proxy_url (jsOr v.url e.url),
             isVideo := true, width := some (numOr0 v.width),
             height := some (numOr0 v.height) } ∧
    (embedMediaTS e).head?.map Media.isVideo = some true := by
  constructor
  · simp [embedMediaB, hv, ht]
  · simp [embedMediaTS, hv, ht]

theorem c3_gifv_video_witness :
    embedMediaB gifvEmbed = some ⟨some "g".data, some "v".data, true, some 3, some 4⟩ ∧
    (embedMediaTS gifvEmbed).head?.map Media.isVideo = some true :=
  c3_gifv_video gifvEmbed vEmbedMedia rfl rfl

/-- C3 counterexample: on a gifv embed with both a video and an image field,
the `index.ts` extractor *does* produce an image descriptor for that embed —
its output is the gifv video descriptor followed by an `isVideo = false`
image descriptor. -/
theorem c3_counterexample :
    extractMedia_ts (some gifvMsg) =
      [⟨some "g".data, some "v".data, true, none, none⟩,
       ⟨some "i".data, some "i".data, false, none, none⟩] ∧
    (extractMedia_ts (some gifvMsg)).map Media.isVideo = [true, false] := by decide

/-- C8: on a message with no image/video attachment (under either
implementation's content-type test) and no embed with an image or video
field, both extractors find nothing and both after-hooks return the host's
return value unchanged, whatever its shape. -/
theorem c8_no_media_unchanged (m : Option Message)
    (h : ∀ mm, m = some mm →
       (∀ att ∈ mm.attachments.getD [], attMediaTS att = none ∧ attMediaB att = none) ∧
       (∀ e ∈ mm.embeds.getD [], e.image = none ∧ e.video = none)) :
    extractMedia_ts m = [] ∧ extractMedia_b m = none ∧
      (∀ r, hookTS m r = r) ∧ (∀ r, hookB m r = r) := by
  have hts : extractMedia_ts m = [] := by
    cases m with
    | none => rfl
    | some mm =>
      obtain ⟨hatt, hemb⟩ := h mm rfl
      have h1 : (mm.attachments.getD []).filterMap attMediaTS = [] :=
        List.filterMap_eq_nil_iff.mpr fun a ha => (hatt a ha).1
      have h2 : embedsMediaTS (mm.embeds.getD []) = [] :=
        embedsMediaTS_empty _ fun e he => embedMediaTS_empty e (hemb e he).1 (hemb e he).2
      simp [extractMedia_ts, h1, h2]
  have hb : extractMedia_b m = none := by
    cases m with
    | none => rfl
    | some mm =>
      obtain ⟨hatt, hemb⟩ := h mm rfl
      have h1 : firstSome attMediaB (mm.attachments.getD []) = none :=
        firstSome_eq_none _ _ fun a ha => (hatt a ha).2
      have h2 : firstSome embedMediaB (mm.embeds.getD []) = none :=
        firstSome_eq_none _ _ fun e he => embedMediaB_none e (hemb e he).1 (hemb e he).2
      simp [extractMedia_b, h1, h2]
  refine ⟨hts, hb, ?_, ?_⟩
  · intro r
    simp [hookTS, hts]
  · intro r
    simp [hookB, hb]

theorem c8_no_media_unchanged_witness :
    extractMedia_ts (some noMediaMsg) = [] ∧
    extractMedia_b (some noMediaMsg) = none ∧
    hookTS (some noMediaMsg) (SheetTS.arr [ItemTS.host 0]) = SheetTS.arr [ItemTS.host 0] ∧
    hookB (some noMediaMsg) (SheetB.elem (some [ItemB.host 1]) none) =
      SheetB.elem (some [ItemB.host 1]) none := by
  have h := c8_no_media_unchanged (some noMediaMsg)
    (by intro mm hmm; cases hmm; exact ⟨by decide, by decide⟩)
  exact ⟨h.1, h.2.1, h.2.2.1 _, h.2.2.2 _⟩

/-- C5 (amended): on a message with qualifying media, the `index.ts` hook
appends to the return value itself when it is a list, else to its `items`
list, else to its `actions` list, and otherwise (including when only an
`options` list exists) leaves the return value untouched; the `part_000`
hook appends to the list itself, else to `props.options`, else to the
`options` list of the first `props.children` entry that has one, and
otherwise leaves the return value untouched. -/
theorem c5_sheet_shapes (m : Option Message) (d : Media)
    (hts : extractMedia_ts m ≠ []) (hb : extractMedia_b m = some d) :
    (∀ xs, hookTS m (SheetTS.arr xs) =
       SheetTS.arr (xs ++ [ItemTS.fav favLabel (extractMedia_ts m)])) ∧
    (∀ xs a o, hookTS m (SheetTS.obj (some xs) a o) =
       SheetTS.obj (some (xs ++ [ItemTS.fav favLabel (extractMedia_ts m)])) a o) ∧
    (∀ xs o, hookTS m (SheetTS.obj none (some xs) o) =
       SheetTS.obj none (some (xs ++ [ItemTS.fav favLabel (extractMedia_ts m)])) o) ∧
    (∀ o, hookTS m (SheetTS.obj none none o) = SheetTS.obj none none o) ∧
    hookTS m SheetTS.other = SheetTS.other ∧
    (∀ xs, hookB m (SheetB.arr xs) = SheetB.arr (xs ++ [buildFavouriteActionItem d])) ∧
    (∀ xs ch, hookB m (SheetB.elem (some xs) ch) =
       SheetB.elem (some (xs ++ [buildFavouriteActionItem d])) ch) ∧
    (∀ xs cs, hookB m (SheetB.elem none (some ({ options := some xs } :: cs))) =
       SheetB.elem none
         (some ({ options := some (xs ++ [buildFavouriteActionItem d]) } :: cs))) ∧
    hookB m (SheetB.elem none none) = SheetB.elem none none ∧
    hookB m SheetB.other = SheetB.other := by
  cases hm : extractMedia_ts m with
  | nil => exact absurd hm hts
  | cons a as =>
    refine ⟨?_, ?_, ?_, ?_, ?_, ?_, ?_, ?_, ?_, ?_⟩
    · intro xs
      simp [hookTS, hm]
    · intro xs a2 o
      simp [hookTS, hm]
    · intro xs o
      simp [hookTS, hm]
    · intro o
      simp [hookTS, hm]
    · simp [hookTS, hm]
    · intro xs
      simp [hookB, hb]
    · intro xs ch
      simp [hookB, hb]
    · intro xs cs
      simp [hookB, hb, pushFirstChild]
    · simp [hookB, hb]
    · simp [hookB, hb]

theorem c5_sheet_shapes_witness :
    hookTS (some exMessage) (SheetTS.obj (some [ItemTS.host 7]) (some []) none) =
      SheetTS.obj
        (some [ItemTS.host 7, ItemTS.fav favLabel (extractMedia_ts (some exMessage))])
        (some []) none ∧
    hookB (some exMessage)
        (SheetB.elem none (some [{ options := some [ItemB.host 9] }])) =
      SheetB.elem none
        (some [{ options := some [ItemB.host 9,
          buildFavouriteActionItem ⟨some "a.png".data, some "a.png".data, false,
            some 100, some 50⟩] }]) := by
  have h := c5_sheet_shapes (some exMessage)
    ⟨some "a.png".data, some "a.png".data, false, some 100, some 50⟩
    (by decide) (by decide)
  exact ⟨h.2.1 [ItemTS.host 7] (some []) none, h.2.2.2.2.2.2.2.1 [ItemB.host 9] []⟩

/-- C5 counterexample: on a message with qualifying media and a return value
that is an object carrying only an `options` list, the claim says the hook
appends the favourite item to that list, but the `index.ts` hook (cited at
`src/src/index.ts` lines 282–288, which checks only `items` and `actions`)
returns it untouched. -/
theorem c5_counterexample :
    hookTS (some exMessage) (SheetTS.obj none none (some [])) =
      SheetTS.obj none none (some []) ∧
    extractMedia_ts (some exMessage) ≠ [] ∧
    SheetTS.obj none none (some []) ≠
      SheetTS.obj none none
        (some [ItemTS.fav favLabel (extractMedia_ts (some exMessage))]) := by decide

/-- C10: when a hook appends, it returns the host's own (augmented) return
value: every pre-existing action item is preserved, in order, as a prefix;
the favourite item appears only at the end of the one list that was found;
and every sibling field (`actions`, `options`, `children`, the other
children entries) is left exactly as it was. -/
theorem c10_append_in_place (m : Option Message) (d : Media)
    (hts : extractMedia_ts m ≠ []) (hb : extractMedia_b m = some d) :
    (∀ xs, hookTS m (SheetTS.arr xs) =
       SheetTS.arr (xs ++ [ItemTS.fav favLabel (extractMedia_ts m)])) ∧
    (∀ xs a o, hookTS m (SheetTS.obj (some xs) a o) =
       SheetTS.obj (some (xs ++ [ItemTS.fav favLabel (extractMedia_ts m)])) a o) ∧
    (∀ xs ch, hookB m (SheetB.elem (some xs) ch) =
       SheetB.elem (some (xs ++ [buildFavouriteActionItem d])) ch) ∧
    (∀ pre c post xs, (∀ c2 ∈ pre, c2.options = none) → c.options = some xs →
       hookB m (SheetB.elem none (some (pre ++ c :: post))) =
         SheetB.elem none
           (some (pre ++ { options := some (xs ++ [buildFavouriteActionItem d]) } :: post))) := by
  cases hm : extractMedia_ts m with
  | nil => exact absurd hm hts
  | cons a as =>
    refine ⟨?_, ?_, ?_, ?_⟩
    · intro xs
      simp [hookTS, hm]
    · intro xs a2 o
      simp [hookTS, hm]
    · intro xs ch
      simp [hookB, hb]
    · intro pre c post xs hpre hc
      simp [hookB, hb, pushFirstChild_append (buildFavouriteActionItem d) pre c post xs hpre hc]

theorem c10_append_in_place_witness :
    hookB (some exMessage)
        (SheetB.elem none (some [{ options := none }, { options := some [ItemB.host 3] },
          { options := some [ItemB.host 4] }])) =
      SheetB.elem none (some [{ options := none },
        { options := some [ItemB.host 3,
            buildFavouriteActionItem ⟨some "a.png".data, some "a.png".data, false,
              some 100, some 50⟩] },
        { options := some [ItemB.host 4] }]) := by
  have h := c10_append_in_place (some exMessage)
    ⟨some "a.png".data, some "a.png".data, false, some 100, some 50⟩
    (by decide) (by decide)
  exact h.2.2.2 [{ options := none }] { options := some [ItemB.host 3] }
    [{ options := some [ItemB.host 4] }] [ItemB.host 3] (by decide) rfl

/-- C6: `onDisable` after `onEnable` invokes every collected unpatch handle
exactly once, in order — a throwing handle is caught and does not prevent the
others (`callHandle` of a failing handle errors, yet its id still appears in
the trace) — leaves an empty handle list, and a second `onDisable` in a row
also returns normally (with nothing to invoke). -/
theorem c6_disable_lifecycle (st : PluginState) (found : Option Handle)
    (h : (((onEnableTS found st).cleanups).map Handle.id).Nodup) :
    onDisable (onEnableTS found st) =
      Except.ok (⟨[]⟩, ((onEnableTS found st).cleanups).map Handle.id) ∧
    (∀ hd ∈ (onEnableTS found st).cleanups,
       (((onEnableTS found st).cleanups).map Handle.id).count hd.id = 1) ∧
    onDisable ⟨[]⟩ = Except.ok (⟨[]⟩, []) := by
  refine ⟨?_, ?_, rfl⟩
  · simp [onDisable, runCleanups_map]
  · intro hd hmem
    exact List.count_eq_one_of_mem h (List.mem_map_of_mem Handle.id hmem)

theorem c6_disable_lifecycle_witness :
    onDisable (onEnableTS (some ⟨2, false⟩) ⟨[⟨1, true⟩]⟩) =
      Except.ok (⟨[]⟩, [1, 2]) ∧
    callHandle ⟨1, true⟩ = Except.error "cleanup error".data ∧
    ([1, 2] : List Nat).count 1 = 1 ∧
    onDisable ⟨[]⟩ = Except.ok (⟨[]⟩, []) := by
  have h := c6_disable_lifecycle ⟨[⟨1, true⟩]⟩ (some ⟨2, false⟩) (by decide)
  exact ⟨h.1, by decide, h.2.1 ⟨1, true⟩ (by decide), h.2.2⟩

/-- C7 (amended): in `index.ts`, whenever the host favourites call throws or
the favourites module is unavailable, `favouriteMedia` invokes `Share.open`
with the original media url, a rejected share is caught (only logged), and no
exception ever escapes the handler; the `part_000` handler also lets no
exception escape, but on a throwing favourites call it shows a failure toast
and never invokes the share flow. -/
theorem c7_fallback_share (env : HostEnv) (target : Media) (rest : List Media)
    (h : env.favThrows = true ∨ env.favAvailable = false) :
    (∃ tr, favouriteMedia env (target :: rest) = Except.ok tr ∧
       Eff.shareOpen target.url ∈ tr) ∧
    (∀ (env2 : HostEnv) (ml : List Media), noThrow (favouriteMedia env2 ml) = true) ∧
    (∀ (env2 : HostEnv) (d : Media), noThrow (buildFavouriteActionPress env2 d) = true) ∧
    (∀ (env2 : HostEnv) (d : Media), env2.favAvailable = true → env2.favThrows = true →
       env2.toastAvailable = true →
       buildFavouriteActionPress env2 d =
         Except.ok [Eff.favCall d.proxyUrl d.url d.width d.height (formatOf d.isVideo),
           Eff.logError "addToFavorites".data, Eff.toast failToastB] ∧
       Eff.shareOpen d.url ∉
         [Eff.favCall d.proxyUrl d.url d.width d.height (formatOf d.isVideo),
           Eff.logError "addToFavorites".data, Eff.toast failToastB]) := by
  refine ⟨?_, ?_, ?_, ?_⟩
  · by_cases ha : env.favAvailable = true
    · have hthrow : env.favThrows = true := by
        rcases h with h | h
        · exact h
        · exact absurd h (by simp [ha])
      refine ⟨Eff.favCall (jsOr target.proxyUrl target.url) target.url none none
          (formatOf target.isVideo) :: Eff.logWarn "addToFavorites".data ::
          Eff.shareOpen target.url ::
          (if env.shareFails then [Eff.logWarn "share".data] else []), ?_, ?_⟩
      · simp [favouriteMedia, ha, hthrow]
      · simp
    · have ha2 : env.favAvailable = false := by
        cases hfa : env.favAvailable
        · rfl
        · exact absurd hfa ha
      refine ⟨Eff.shareOpen target.url ::
          (if env.shareFails then [Eff.logWarn "share".data] else []), ?_, ?_⟩
      · simp [favouriteMedia, ha2]
      · simp
  · intro env2 ml
    cases ml with
    | nil => rfl
    | cons t r =>
      obtain ⟨fa, ft, sf, ta⟩ := env2
      cases fa <;> cases ft <;> cases sf <;> cases ta <;> simp [favouriteMedia, noThrow]
  · intro env2 d
    obtain ⟨fa, ft, sf, ta⟩ := env2
    cases fa <;> cases ft <;> cases sf <;> cases ta <;>
      simp [buildFavouriteActionPress, noThrow]
  · intro env2 d h1 h2 h3
    refine ⟨by simp [buildFavouriteActionPress, h1, h2, h3], ?_⟩
    simp

theorem c7_fallback_share_witness :
    noThrow (favouriteMedia throwingEnv [sampleMedia]) = true ∧
    favouriteMedia throwingEnv [sampleMedia] =
      Except.ok [Eff.favCall (some "p".data) (some "u".data) none none 2,
        Eff.logWarn "addToFavorites".data, Eff.shareOpen (some "u".data)] ∧
    Eff.shareOpen sampleMedia.url ∈
      [Eff.favCall (some "p".data) (some "u".data) none none 2,
        Eff.logWarn "addToFavorites".data, Eff.shareOpen (some "u".data)] :=
  ⟨(c7_fallback_share throwingEnv sampleMedia [] (Or.inl rfl)).2.1 throwingEnv [sampleMedia],
   by decide, by decide⟩

/-- C7 counterexample: with the favourites module available but its call
throwing, the `part_000` handler (cited `buildFavouriteAction`,
`src/unnamed/part_000` lines 471–507) shows a failure toast and does *not*
invoke the share flow with the media url — there is no share fallback in
that implementation. -/
theorem c7_counterexample :
    buildFavouriteActionPress throwingEnv sampleMedia =
      Except.ok [Eff.favCall (some "p".data) (some "u".data) (some 3) (some 4) 2,
        Eff.logError "addToFavorites".data, Eff.toast failToastB] ∧
    Eff.shareOpen sampleMedia.url ∉
      [Eff.favCall (some "p".data) (some "u".data) (some 3) (some 4) 2,
        Eff.logError "addToFavorites".data, Eff.toast failToastB] := by decide

end FavouriteAnything
